import Mathlib

/-!
Verification of the KALE transaction-preparation pipeline.

Shallow embedding of `src/feasibility/kale/src/rpc.rs` and
`src/feasibility/kale/src/contracts/kale.rs`.

Bytes are modelled as `Nat` values below 256.  Machine integers are
modelled as `Nat` (unsigned) or `Int` (signed), with explicit reduction
modulo `2 ^ w` at exactly the places where the Rust code's `as` casts
wrap (release-mode wrapping semantics).
-/

/-! ## Keccak-256 (the `sha3::Keccak256` digest used by `calculate_work_hash`) -/

/-- Rotate a 64-bit lane left by `n` bits. -/
def rotl64 (x n : Nat) : Nat :=
  ((x <<< n) ||| (x >>> (64 - n))) % 2 ^ 64

/-- Bitwise complement of a 64-bit lane. -/
def not64 (x : Nat) : Nat := x ^^^ (2 ^ 64 - 1)

/-- The 24 Keccak-f[1600] round constants, written in decimal. -/
def keccakRC : List Nat :=
  [1, 32898, 9223372036854808714, 9223372039002292224, 32907,
   2147483649, 9223372039002292353, 9223372036854808585, 138, 136,
   2147516425, 2147483658, 2147516555, 9223372036854775947,
   9223372036854808713, 9223372036854808579, 9223372036854808578,
   9223372036854775936, 32778, 9223372039002259466, 9223372039002292353,
   9223372036854808704, 2147483649, 9223372039002292232]

/-- For each target lane index `x + 5 * y` of the combined rho-pi step:
the source lane index `(x + 3 * y) % 5 + 5 * x`, paired with that source
lane's rotation amount from the standard rho offset table. -/
def rhoPiTable : List (Nat × Nat) :=
  [(0, 0), (6, 44), (12, 43), (18, 21), (24, 14),
   (3, 28), (9, 20), (10, 3), (16, 45), (22, 61),
   (1, 1), (7, 6), (13, 25), (19, 8), (20, 18),
   (4, 27), (5, 36), (11, 10), (17, 15), (23, 56),
   (2, 62), (8, 55), (14, 39), (15, 41), (21, 2)]

/-- Column parity used by the theta step. -/
def thetaC (A : List Nat) (x : Nat) : Nat :=
  A.getD x 0 ^^^ A.getD (x + 5) 0 ^^^ A.getD (x + 10) 0 ^^^
    A.getD (x + 15) 0 ^^^ A.getD (x + 20) 0

/-- Theta step of Keccak-f. -/
def theta (A : List Nat) : List Nat :=
  (List.range 25).map fun i =>
    A.getD i 0 ^^^ thetaC A ((i % 5 + 4) % 5) ^^^ rotl64 (thetaC A ((i % 5 + 1) % 5)) 1

/-- Combined rho and pi steps: `B[x, y] = rotl(A[(x + 3y) % 5, x], r[(x + 3y) % 5, x])`. -/
def rhoPi (A : List Nat) : List Nat :=
  rhoPiTable.map fun p => rotl64 (A.getD p.1 0) p.2

/-- Chi step of Keccak-f. -/
def chi (A : List Nat) : List Nat :=
  (List.range 25).map fun i =>
    let x := i % 5
    let y := i / 5
    A.getD i 0 ^^^ (not64 (A.getD ((x + 1) % 5 + 5 * y) 0) &&& A.getD ((x + 2) % 5 + 5 * y) 0)

/-- Iota step: xor the round constant into lane 0. -/
def iota (rc : Nat) (A : List Nat) : List Nat :=
  match A with
  | [] => []
  | a :: rest => (a ^^^ rc) :: rest

/-- The full Keccak-f[1600] permutation (24 rounds). -/
def keccakF (A : List Nat) : List Nat :=
  keccakRC.foldl (fun S rc => iota rc (chi (rhoPi (theta S)))) A

/-- Little-endian interpretation of (up to 8) bytes as a 64-bit lane. -/
def laneOfBytes (bs : List Nat) : Nat :=
  bs.foldr (fun b acc => b + 256 * acc) 0

/-- The 8 little-endian bytes of a 64-bit lane. -/
def bytesOfLane (lane : Nat) : List Nat :=
  (List.range 8).map fun k => lane / 2 ^ (8 * k) % 256

/-- Split a byte string into rate-sized (136-byte) blocks. -/
def chunkBytes (l : List Nat) : List (List Nat) :=
  if h : l = [] then []
  else l.take 136 :: chunkBytes (l.drop 136)
termination_by l.length
decreasing_by
  have hpos : 0 < l.length := List.length_pos.mpr h
  simp only [List.length_drop]
  omega

/-- Absorb one 136-byte block into the sponge state and permute. -/
def absorbBlock (A block : List Nat) : List Nat :=
  let lanes := (List.range 17).map fun j => laneOfBytes ((block.drop (8 * j)).take 8)
  keccakF ((List.range 25).map fun i =>
    if i < 17 then A.getD i 0 ^^^ lanes.getD i 0 else A.getD i 0)

/-- Keccak multi-rate padding (`0x01 … 0x80`) for a message of length `len`. -/
def keccakPad (len : Nat) : List Nat :=
  let padlen := 136 - len % 136
  if padlen = 1 then [0x81]
  else 0x01 :: (List.replicate (padlen - 2) 0 ++ [0x80])

/-- Keccak-256 digest (32 bytes) of a byte string. -/
def keccak256 (msg : List Nat) : List Nat :=
  let padded := msg ++ keccakPad msg.length
  let final := (chunkBytes padded).foldl absorbBlock (List.replicate 25 0)
  ((List.range 4).map fun j => bytesOfLane (final.getD j 0)).flatten

/-! ## Byte helpers shared by the pipeline -/

/-- Big-endian bytes of a `u32`, as produced by `u32::to_be_bytes`. -/
def be32 (n : Nat) : List Nat :=
  [n / 2 ^ 24 % 256, n / 2 ^ 16 % 256, n / 2 ^ 8 % 256, n % 256]

/-- Big-endian bytes of a `u64`, as produced by `u64::to_be_bytes`. -/
def be64 (n : Nat) : List Nat :=
  [n / 2 ^ 56 % 256, n / 2 ^ 48 % 256, n / 2 ^ 40 % 256, n / 2 ^ 32 % 256,
   n / 2 ^ 24 % 256, n / 2 ^ 16 % 256, n / 2 ^ 8 % 256, n % 256]

/-- Reinterpret a `u64` value as an `i64` (Rust `as i64`). -/
def i64ofU64 (m : Nat) : Int :=
  if m < 2 ^ 63 then (m : Int) else (m : Int) - 2 ^ 64

/-- Wrap an integer into the `i64` range (release-mode wrapping arithmetic). -/
def wrapI64 (x : Int) : Int :=
  (x + 2 ^ 63) % 2 ^ 64 - 2 ^ 63

/-- Truncate an `i64` value to a `u32` (Rust `as u32`, low 32 bits). -/
def u32ofI64 (x : Int) : Nat :=
  (x % 2 ^ 32).toNat

/-! ## Data model

Mirrors the `stellar_xdr` types actually used by the pipeline, restricted to
the variants the code constructs or matches on. -/

/-- Model of `ScAddress`: the two address kinds the code handles.  An account address
carries the 32 Ed25519 public-key bytes; a contract address its 32-byte id. -/
inductive ScAddressE
  | account (pk : List Nat)
  | contract (h : List Nat)
deriving DecidableEq, Repr

/-- Model of `ScVal`, restricted to the variants the pipeline constructs or matches on.
Symbols are modelled by their text (the code compares
`sym.to_utf8_string_lossy()` against ASCII names, which for ASCII targets is
exact byte equality). -/
inductive ScValE
  | scBool (b : Bool)
  | u32 (n : Nat)
  | u64 (n : Nat)
  | i128 (hi : Int) (lo : Nat)
  | bytes (bs : List Nat)
  | symbol (s : String)
  | vec (v : Option (List ScValE))
  | map (m : Option (List (ScValE × ScValE)))
  | address (a : ScAddressE)
  | ledgerKeyContractInstance
  | contractInstance (storage : Option (List (ScValE × ScValE)))
deriving Repr

/-- Model of `SorobanAuthorizationEntry`: opaque to this client (decoded and stored,
never inspected), modelled by an abstract payload. -/
structure SorobanAuthorizationEntryE where
  payload : Nat
deriving DecidableEq, Repr

/-- Model of `SorobanTransactionData` as used by `apply_simulation_to_transaction`:
the opaque resource blob and the resource fee. -/
structure SorobanTransactionDataE where
  resources : Nat
  resourceFee : Int
deriving DecidableEq, Repr

/-- Model of `InvokeHostFunctionOp` for an `InvokeContract` host function on the
configured contract: function symbol, arguments, authorization entries. -/
structure InvokeHostFunctionOpE where
  functionName : String
  args : List ScValE
  auth : List SorobanAuthorizationEntryE
deriving Repr

/-- Model of `OperationBody`, restricted to what the pipeline touches.  `other` stands
for any body that is not `InvokeHostFunction` (e.g. `ChangeTrust`), which
`apply_simulation_to_transaction` leaves untouched. -/
inductive OperationBodyE
  | invokeHostFunction (op : InvokeHostFunctionOpE)
  | other
deriving Repr

/-- An operation (the `source_account` field is always `None` here). -/
structure OperationE where
  body : OperationBodyE
deriving Repr

/-- Model of `TransactionExt`: `V0` until the simulation is applied, then `V1` with
the Soroban transaction data. -/
inductive TransactionExtE
  | v0
  | v1 (d : SorobanTransactionDataE)
deriving Repr

/-- A transaction draft (`stellar_xdr::curr::Transaction`), restricted to the
fields the code sets or mutates.  `cond` and `memo` are always
`Preconditions::None` / `Memo::None` and are omitted. -/
structure TransactionE where
  sourceAccount : List Nat
  fee : Nat
  seqNum : Int
  operations : List OperationE
  ext : TransactionExtE
deriving Repr

/-- Outcome of base64-XDR-decoding one authorization entry
(`SorobanAuthorizationEntry::from_xdr_base64`). -/
inductive AuthXdr
  | valid (e : SorobanAuthorizationEntryE)
  | malformed
deriving DecidableEq, Repr

/-- One element of `SimulateTransactionResponse.results`. -/
structure SimResultE where
  auth : List AuthXdr
deriving Repr

/-- The `transaction_data` string of a simulation response, by what it
decodes to: empty, undecodable, or a valid `SorobanTransactionData`. -/
inductive TxDataXdr
  | empty
  | malformed
  | valid (d : SorobanTransactionDataE)
deriving DecidableEq, Repr

/-- Model of `SimulateTransactionResponse` (the fields the code reads).
`min_resource_fee` is a `u64` in the client crate. -/
structure SimulateTransactionResponseE where
  simError : Option String
  results : List SimResultE
  transactionData : TxDataXdr
  minResourceFee : Nat
deriving Repr

/-- The decoded form of a fetched ledger entry's base64 `xdr` field:
either the decode fails, or it yields a `LedgerEntryData` which is
`ContractData` (with its `val`) or some other arm. -/
inductive RawLedgerEntry
  | malformedXdr
  | contractData (val : ScValE)
  | otherEntry
deriving Repr

/-- Outcome of a transport call: a response, or a network/timeout failure. -/
inductive TransportResult (α : Type)
  | ok (a : α)
  | transportError
deriving Repr

/-- Model of `AccountEntry` as returned by `client.get_account` (the fields read). -/
structure AccountResponseE where
  seqNum : Int
  balance : Int
deriving DecidableEq, Repr

/-- The error outcomes of the pipeline (each constructor corresponds to one
`bail!`/`context` site in the source). -/
inductive RpcError
  | entropyUnavailable
  | accountNotFound
  | functionNameTooLong
  | argsTooLong
  | authEntriesTooLong
  | noSimulationResults
  | noTransactionData
  | malformedTransactionData
  | simulationFailed (msg : String)
  | simulateTransportFailed
  | noTrustline
  | xdrDecodeFailed
  | unexpectedEntryStructure
  | noStorageMap
  | instanceKeyNotFound (k : String)
  | farmIndexNotU32
  | blockNotMap
  | pailNotMap
  | entryNotContractData
  | trustlineCheckFailed
deriving DecidableEq, Repr

/-! ## Proof hash calculator (`Kale::calculate_work_hash`, kale.rs 255-300) -/

/-- XDR encoding of `ScAddress` (`farmer_address_scval.to_xdr`): a 4-byte
big-endian discriminant (0 = Account, 1 = Contract), for accounts a second
4-byte discriminant (0 = `PUBLIC_KEY_TYPE_ED25519`), then the raw 32 bytes. -/
def scAddressToXdr : ScAddressE → List Nat
  | .account pk => [0, 0, 0, 0] ++ ([0, 0, 0, 0] ++ pk)
  | .contract h => [0, 0, 0, 1] ++ h

/-- Pure core of `Kale::calculate_work_hash` (kale.rs 255-300), taking the
block info fetched by `get_block_info` as input.  Builds the 76-byte
preimage `block_index.to_be_bytes ++ nonce.to_be_bytes ++ entropy ++
(last 32 bytes of the farmer address's XDR encoding)` and hashes it with
Keccak-256; fails when the entropy is absent. -/
def calculate_work_hash (blockIndex nonce : Nat) (entropy : Option (List Nat))
    (farmerPk : List Nat) : Except RpcError (List Nat) :=
  match entropy with
  | none => .error .entropyUnavailable
  | some e =>
    let farmerXdr := scAddressToXdr (.account farmerPk)
    let farmerBytes := farmerXdr.drop (farmerXdr.length - 32)
    let hashInput := be32 blockIndex ++ (be64 nonce ++ (e ++ farmerBytes))
    .ok (keccak256 hashInput)

/-! ## Simulation applier (`SorobanRpc::apply_simulation_to_transaction`,
rpc.rs 178-243) -/

/-- Decoding one authorization entry
(`SorobanAuthorizationEntry::from_xdr_base64(..).ok()`). -/
def decodeAuthEntry : AuthXdr → Option SorobanAuthorizationEntryE
  | .valid e => some e
  | .malformed => none

/-- Embedding of `SorobanRpc::apply_simulation_to_transaction` (rpc.rs 178-243).
Fails when there is no simulation result, when `transaction_data` is empty
or unparseable; otherwise, when the first result's auth list is nonempty,
replaces the first operation's auth entries (if it is an
`InvokeHostFunction`) with the entries that decode successfully
(`filter_map(.. .ok())`), attaches the Soroban data as the `V1` extension,
and sets `fee = (100i64 + min_resource_fee as i64) as u32`. -/
def apply_simulation_to_transaction (tx : TransactionE)
    (sim : SimulateTransactionResponseE) : Except RpcError TransactionE :=
  match sim.results.head? with
  | none => .error .noSimulationResults
  | some firstResult =>
    match sim.transactionData with
    | .empty => .error .noTransactionData
    | .malformed => .error .malformedTransactionData
    | .valid sorobanTxData =>
      let authEntries := firstResult.auth.filterMap decodeAuthEntry
      if firstResult.auth.isEmpty then
        .ok { tx with
              ext := .v1 { resources := sorobanTxData.resources,
                           resourceFee := sorobanTxData.resourceFee },
              fee := u32ofI64 (wrapI64 (100 + i64ofU64 sim.minResourceFee)) }
      else if 2 ^ 32 ≤ authEntries.length then .error .authEntriesTooLong
      else
        let ops :=
          match tx.operations with
          | [] => []
          | op0 :: rest =>
            match op0.body with
            | .invokeHostFunction inv =>
              { body := OperationBodyE.invokeHostFunction
                  { inv with auth := authEntries } } :: rest
            | .other => op0 :: rest
        .ok { tx with
              operations := ops,
              ext := .v1 { resources := sorobanTxData.resources,
                           resourceFee := sorobanTxData.resourceFee },
              fee := u32ofI64 (wrapI64 (100 + i64ofU64 sim.minResourceFee)) }

/-! ## Transaction builder (`SorobanRpc::build_invoke_transaction`,
rpc.rs 99-158) -/

/-- Embedding of `SorobanRpc::build_invoke_transaction` (rpc.rs 99-158), with the
transport's `get_account` outcome passed in (`None` = account absent, the
client call fails and `?` propagates).  The source key has already been
checked to be a supported Ed25519 account key, mirroring the claims'
"supported source address".  Sets `sequence = seq_num + 1`, a placeholder
fee of 100, and a single `InvokeHostFunction` operation with empty auth.
The 32-byte `ScSymbol` bound on the function name and the `u32` length
bound of the argument vector come from the two `try_into` calls. -/
def build_invoke_transaction (account : Option AccountResponseE)
    (sourcePk : List Nat) (functionName : String) (args : List ScValE) :
    Except RpcError TransactionE :=
  match account with
  | none => .error .accountNotFound
  | some acct =>
    let sequence := wrapI64 (acct.seqNum + 1)
    if 32 < functionName.utf8ByteSize then .error .functionNameTooLong
    else if 2 ^ 32 ≤ args.length then .error .argsTooLong
    else
      let inv : InvokeHostFunctionOpE :=
        { functionName := functionName, args := args, auth := [] }
      .ok { sourceAccount := sourcePk,
            fee := 100,
            seqNum := sequence,
            operations := [{ body := OperationBodyE.invokeHostFunction inv }],
            ext := .v0 }

/-! ## Transport wrappers (`SorobanRpc::get_ledger_entry`, rpc.rs 370-378,
and `SorobanRpc::get_xlm_balance`, rpc.rs 391-402) -/

/-- Embedding of `SorobanRpc::get_ledger_entry` (rpc.rs 370-378): on a transport success
takes the first returned entry (absent entries mean "does not exist"); on a
transport failure returns `Ok(None)`. -/
def get_ledger_entry (resp : TransportResult (Option (List RawLedgerEntry))) :
    Except RpcError (Option RawLedgerEntry) :=
  match resp with
  | .ok entries => .ok (entries.bind List.head?)
  | .transportError => .ok none

/-- Embedding of `SorobanRpc::get_xlm_balance` (rpc.rs 391-402): on a transport success
returns the account balance; on any `get_account` failure returns
`Ok(None)` ("account doesn't exist"). -/
def get_xlm_balance (resp : TransportResult AccountResponseE) :
    Except RpcError (Option Int) :=
  match resp with
  | .ok a => .ok (some a.balance)
  | .transportError => .ok none

/-! ## Storage decoder -/

/-- The instance-storage lookup loop of
`SorobanRpc::parse_instance_storage_value` (rpc.rs 76-86): keys are wrapped
as `Vec([Symbol(name), ..])`; the first matching key's value is returned. -/
def findInstanceKey (m : List (ScValE × ScValE)) (keyName : String) :
    Except RpcError ScValE :=
  match m with
  | [] => .error (.instanceKeyNotFound keyName)
  | (key, val) :: rest =>
    match key with
    | .vec (some (first :: _)) =>
      match first with
      | .symbol s =>
        if s = keyName then .ok val else findInstanceKey rest keyName
      | _ => findInstanceKey rest keyName
    | _ => findInstanceKey rest keyName

/-- Embedding of `SorobanRpc::parse_instance_storage_value` (rpc.rs 59-91): decode the
entry, navigate `ContractData -> ContractInstance -> storage`, find the key. -/
def parse_instance_storage_value (entry : RawLedgerEntry) (keyName : String) :
    Except RpcError ScValE :=
  match entry with
  | .malformedXdr => .error .xdrDecodeFailed
  | .otherEntry => .error .unexpectedEntryStructure
  | .contractData val =>
    match val with
    | .contractInstance storage =>
      match storage with
      | none => .error .noStorageMap
      | some m => findInstanceKey m keyName
    | _ => .error .unexpectedEntryStructure

/-- The entropy-extraction loop of `Kale::get_block_info` (kale.rs 220-235):
scan the block map for a `Symbol("entropy")` key whose value is a byte
string of exactly 32 bytes; any entry that does not match all of that is
skipped and the scan continues. -/
def findEntropy (m : List (ScValE × ScValE)) : Option (List Nat) :=
  match m with
  | [] => none
  | (key, val) :: rest =>
    match key, val with
    | .symbol s, .bytes bs =>
      if s = "entropy" ∧ bs.length = 32 then some bs else findEntropy rest
    | _, _ => findEntropy rest

/-- Pure core of `Kale::get_block_info` (kale.rs 181-246), with the fetched
instance entry and the (optional) `Block(index)` temporary entry passed in.
The block index is the `FarmIndex` instance-storage value, which must be a
`U32`; entropy is extracted from the block map when a block entry exists. -/
def get_block_info (instanceEntry : RawLedgerEntry)
    (blockEntry : Option RawLedgerEntry) :
    Except RpcError (Nat × Option (List Nat)) :=
  match parse_instance_storage_value instanceEntry "FarmIndex" with
  | .error e => .error e
  | .ok indexValue =>
    match indexValue with
    | .u32 blockIndex =>
      match blockEntry with
      | none => .ok (blockIndex, none)
      | some rawEntry =>
        match rawEntry with
        | .malformedXdr => .error .xdrDecodeFailed
        | .otherEntry => .error .entryNotContractData
        | .contractData val =>
          match val with
          | .map (some m) => .ok (blockIndex, findEntropy m)
          | _ => .error .blockNotMap
    | _ => .error .farmIndexNotU32

/-- The `zeros`-field normalization of `Kale::get_pail_data` (kale.rs
435-450): a direct `U32` yields `Some`, an empty `Vec` yields `None`, a
nonempty `Vec` yields `Some` iff its first element is a `U32`, and every
other shape leaves the value `None`. -/
def pailZerosOfVal : ScValE → Option Nat
  | .u32 z => some z
  | .vec (some []) => none
  | .vec (some (first :: _)) =>
    match first with
    | .u32 z => some z
    | _ => none
  | _ => none

/-- The `zeros`-field scan of `Kale::get_pail_data` (kale.rs 429-454): the
loop breaks at the first entry whose key is `Symbol("zeros")` and applies
the shape normalization to its value. -/
def findZeros (m : List (ScValE × ScValE)) : Option Nat :=
  match m with
  | [] => none
  | (key, val) :: rest =>
    match key with
    | .symbol s => if s = "zeros" then pailZerosOfVal val else findZeros rest
    | _ => findZeros rest

/-- Pure core of `Kale::get_pail_data` (kale.rs 384-467), with the fetched
`Pail(farmer, index)` entry passed in.  Returns
`(has_pail, has_worked, leading_zeros)`. -/
def get_pail_data (entry : Option RawLedgerEntry) :
    Except RpcError (Bool × Bool × Nat) :=
  match entry with
  | none => .ok (false, false, 0)
  | some rawEntry =>
    match rawEntry with
    | .malformedXdr => .error .xdrDecodeFailed
    | .otherEntry => .error .entryNotContractData
    | .contractData val =>
      match val with
      | .map (some m) =>
        let zerosValue := findZeros m
        .ok (true, zerosValue.isSome, zerosValue.getD 0)
      | _ => .error .pailNotMap

/-! ## Plant pipeline (`Kale::prepare_plant_transaction`, kale.rs 45-120) -/

/-- The simulation-error gate shared by `prepare_plant_transaction`,
`prepare_work_transaction` and `prepare_harvest_transaction`
(kale.rs 100-105): bail with the simulation's error message before
`apply_simulation_to_transaction` is ever called, otherwise apply. -/
def check_and_apply_simulation (tx : TransactionE)
    (sim : SimulateTransactionResponseE) : Except RpcError TransactionE :=
  match sim.simError with
  | some msg => .error (.simulationFailed msg)
  | none => apply_simulation_to_transaction tx sim

/-- The steps of the plant pipeline that this embedding records, for
stating which of them a run reaches. -/
inductive Effect
  | checkTrustline
  | buildTransaction
  | simulate
  | applySimulation
deriving DecidableEq, Repr

/-- The transport responses a `prepare_plant_transaction` run can consume:
the trustline check's outcome, the `get_account` result and the
simulation response. -/
structure PlantEnv where
  trustlineCheck : Except RpcError (Bool × Int)
  account : Option AccountResponseE
  simulateResult : TransportResult SimulateTransactionResponseE

/-- Pure core of `Kale::prepare_plant_transaction` (kale.rs 45-120), paired
with the list of pipeline steps the run reached, in order: check the KALE
trustline and bail if it is missing; build the `plant(farmer, amount)`
invocation draft; simulate; bail on a simulation error; apply the
simulation.  (The final base64 envelope encoding is omitted; the claims
are about the transaction value.)  The `i128` amount is split as
`(amount >> 64) as i64` and `(amount & 0xFFFFFFFFFFFFFFFF) as u64`. -/
def prepare_plant_transaction (env : PlantEnv) (farmerPk : List Nat)
    (amount : Int) : List Effect × Except RpcError TransactionE :=
  match env.trustlineCheck with
  | .error _ => ([.checkTrustline], .error .trustlineCheckFailed)
  | .ok (hasTrustline, _balance) =>
    if hasTrustline = false then ([.checkTrustline], .error .noTrustline)
    else
      let args := [ScValE.address (.account farmerPk),
                   ScValE.i128 (Int.fdiv amount (2 ^ 64))
                     (Int.emod amount (2 ^ 64)).toNat]
      match build_invoke_transaction env.account farmerPk "plant" args with
      | .error e => ([.checkTrustline, .buildTransaction], .error e)
      | .ok tx =>
        match env.simulateResult with
        | .transportError =>
          ([.checkTrustline, .buildTransaction, .simulate],
           .error .simulateTransportFailed)
        | .ok sim =>
          match sim.simError with
          | some msg =>
            ([.checkTrustline, .buildTransaction, .simulate],
             .error (.simulationFailed msg))
          | none =>
            ([.checkTrustline, .buildTransaction, .simulate, .applySimulation],
             apply_simulation_to_transaction tx sim)

/-! ## Projections and concrete inputs used in the theorems below -/

/-- The fee of an applied transaction, when one was produced. -/
def applyOutcomeFee : Except RpcError TransactionE → Option Nat
  | .ok tx => some tx.fee
  | .error _ => none

/-- The first operation's authorization-entry list of an applied
transaction, when one was produced and the operation is an invocation. -/
def applyOutcomeFirstAuth :
    Except RpcError TransactionE → Option (List SorobanAuthorizationEntryE)
  | .ok tx =>
    match tx.operations with
    | op :: _ =>
      match op.body with
      | .invokeHostFunction inv => some inv.auth
      | .other => none
    | [] => none
  | .error _ => none

/-- A single `plant` invocation operation with no auth entries. -/
def plantInvokeOp : OperationE :=
  ⟨.invokeHostFunction ⟨"plant", [], []⟩⟩

/-- A draft with a single invocation operation and no auth entries, as
`build_invoke_transaction` produces. -/
def txInvokeDraft : TransactionE :=
  { sourceAccount := List.replicate 32 0,
    fee := 100,
    seqNum := 6,
    operations := [plantInvokeOp],
    ext := .v0 }

/-- A successful simulation response whose single auth entry does not
decode. -/
def simMalformedAuth : SimulateTransactionResponseE :=
  { simError := none,
    results := [{ auth := [.malformed] }],
    transactionData := .valid { resources := 0, resourceFee := 0 },
    minResourceFee := 0 }

/-- A successful simulation response whose minimum resource fee drives the
fee sum to exactly `2 ^ 32`. -/
def simWrapFee : SimulateTransactionResponseE :=
  { simError := none,
    results := [{ auth := [] }],
    transactionData := .valid { resources := 0, resourceFee := 0 },
    minResourceFee := 2 ^ 32 - 100 }

/-- A function name of 33 bytes, one over the `ScSymbol` limit. -/
def longFunctionName : String := "aaaaaaaaaaaaaaaaaaaaaaaaaaaaaaaaa"

/-- An instance entry whose storage holds `FarmIndex = idx` under the
wrapped key `Vec([Symbol("FarmIndex")])`. -/
def instanceEntryWithIndex (idx : Nat) : RawLedgerEntry :=
  .contractData (.contractInstance
    (some [(.vec (some [.symbol "FarmIndex"]), .u32 idx)]))

/-- A successful simulation response with one decodable auth entry. -/
def simValidAuth : SimulateTransactionResponseE :=
  { simError := none,
    results := [{ auth := [.valid ⟨7⟩] }],
    transactionData := .valid { resources := 0, resourceFee := 0 },
    minResourceFee := 0 }

/-- A successful simulation response with a minimum resource fee of 2500. -/
def sim2500 : SimulateTransactionResponseE :=
  { simError := none,
    results := [{ auth := [] }],
    transactionData := .valid { resources := 0, resourceFee := 0 },
    minResourceFee := 2500 }

/-- A simulation response carrying the error string "x". -/
def simErrorX : SimulateTransactionResponseE :=
  { simError := some "x",
    results := [],
    transactionData := .empty,
    minResourceFee := 0 }

/-- A plant environment whose trustline check reports no trustline. -/
def envNoTrustline : PlantEnv :=
  { trustlineCheck := .ok (false, 0),
    account := none,
    simulateResult := .transportError }

/-- A plant environment whose simulation carries the error string "x". -/
def envSimError : PlantEnv :=
  { trustlineCheck := .ok (true, 0),
    account := some { seqNum := 5, balance := 0 },
    simulateResult := .ok simErrorX }


/-! ## Helper lemmas -/

theorem take_append_of_length {α : Type} (l₁ l₂ : List α) (n : Nat)
    (h : l₁.length = n) : (l₁ ++ l₂).take n = l₁ := by
  subst h
  induction l₁ with
  | nil => simp
  | cons a t ih => simp [ih]

theorem drop_append_of_length {α : Type} (l₁ l₂ : List α) (n : Nat)
    (h : l₁.length = n) : (l₁ ++ l₂).drop n = l₂ := by
  subst h
  induction l₁ with
  | nil => simp
  | cons a t ih => simp [ih]

theorem filterMap_decodeAuthEntry_map_valid
    (es : List SorobanAuthorizationEntryE) :
    (es.map AuthXdr.valid).filterMap decodeAuthEntry = es := by
  induction es with
  | nil => rfl
  | cons e t ih => simp [List.filterMap_cons, decodeAuthEntry, ih]

theorem fee_cast_eq_mod (m : Nat) (hm : m < 2 ^ 64) :
    u32ofI64 (wrapI64 (100 + i64ofU64 m)) = (100 + m) % 2 ^ 32 := by
  unfold u32ofI64 wrapI64 i64ofU64
  norm_num
  split <;> omega

/-! ## C1: proof hash calculator -/

/-- C1.  `calculate_work_hash` builds exactly a 76-byte preimage whose
bytes 0-3 are the block index big-endian, bytes 4-11 the nonce big-endian,
bytes 12-43 the entropy, and bytes 44-75 the last 32 bytes of the farmer
address's XDR encoding, and returns the Keccak-256 digest of that
preimage; with no entropy it fails with the entropy-unavailable error. -/
theorem calculate_work_hash_spec (blockIndex nonce : Nat)
    (entropy farmerPk : List Nat)
    (hbi : blockIndex < 2 ^ 32) (hnonce : nonce < 2 ^ 64)
    (he : entropy.length = 32) (hpk : farmerPk.length = 32) :
    (∃ pre : List Nat,
      pre.length = 76 ∧
      pre.take 4 = be32 blockIndex ∧
      (pre.drop 4).take 8 = be64 nonce ∧
      (pre.drop 12).take 32 = entropy ∧
      pre.drop 44 = (scAddressToXdr (.account farmerPk)).drop
        ((scAddressToXdr (.account farmerPk)).length - 32) ∧
      calculate_work_hash blockIndex nonce (some entropy) farmerPk =
        .ok (keccak256 pre)) ∧
    calculate_work_hash blockIndex nonce none farmerPk =
      .error .entropyUnavailable := by
  constructor
  · have hxlen : (scAddressToXdr (.account farmerPk)).length = 40 := by
      simp [scAddressToXdr, hpk]
    set fb : List Nat := (scAddressToXdr (.account farmerPk)).drop
      ((scAddressToXdr (.account farmerPk)).length - 32) with hfbdef
    have hfb : fb = farmerPk := by
      rw [hfbdef, hxlen]
      rfl
    have hfblen : fb.length = 32 := by rw [hfb, hpk]
    refine ⟨be32 blockIndex ++ (be64 nonce ++ (entropy ++ fb)), ?_, ?_, ?_, ?_, ?_, ?_⟩
    · simp [be32, be64, he, hfblen]
    · exact take_append_of_length _ _ 4 rfl
    · rw [drop_append_of_length (be32 blockIndex) _ 4 rfl]
      exact take_append_of_length _ _ 8 rfl
    · have h12 : (be32 blockIndex ++ (be64 nonce ++ (entropy ++ fb))).drop 12 =
          entropy ++ fb := by
        have : (be32 blockIndex ++ (be64 nonce ++ (entropy ++ fb))).drop 12 =
            ((be32 blockIndex ++ (be64 nonce ++ (entropy ++ fb))).drop 4).drop 8 := by
          rw [List.drop_drop]
        rw [this, drop_append_of_length (be32 blockIndex) _ 4 rfl,
          drop_append_of_length (be64 nonce) _ 8 rfl]
      rw [h12]
      exact take_append_of_length _ _ 32 he
    · have h44 : (be32 blockIndex ++ (be64 nonce ++ (entropy ++ fb))).drop 44 =
          fb := by
        have : (be32 blockIndex ++ (be64 nonce ++ (entropy ++ fb))).drop 44 =
            (((be32 blockIndex ++ (be64 nonce ++ (entropy ++ fb))).drop 4).drop 8).drop 32 := by
          rw [List.drop_drop, List.drop_drop]
        rw [this, drop_append_of_length (be32 blockIndex) _ 4 rfl,
          drop_append_of_length (be64 nonce) _ 8 rfl,
          drop_append_of_length entropy _ 32 he]
      rw [h44]
    · rfl
  · rfl

/-- Witness for C1 at block index 0, nonce 0, all-zero entropy and key. -/
theorem calculate_work_hash_spec_witness :
    (∃ pre : List Nat,
      pre.length = 76 ∧
      pre.take 4 = be32 0 ∧
      (pre.drop 4).take 8 = be64 0 ∧
      (pre.drop 12).take 32 = List.replicate 32 0 ∧
      pre.drop 44 = (scAddressToXdr (.account (List.replicate 32 0))).drop
        ((scAddressToXdr (.account (List.replicate 32 0))).length - 32) ∧
      calculate_work_hash 0 0 (some (List.replicate 32 0)) (List.replicate 32 0) =
        .ok (keccak256 pre)) ∧
    calculate_work_hash 0 0 none (List.replicate 32 0) =
      .error .entropyUnavailable :=
  calculate_work_hash_spec 0 0 (List.replicate 32 0) (List.replicate 32 0)
    (by norm_num) (by norm_num) (by simp) (by simp)

/-! ## C2: auth-entry replacement by the simulation applier -/

/-- C2 counterexample.  A successful simulation whose single auth entry
does not decode makes `apply_simulation_to_transaction` succeed with the
entry silently dropped (the resulting auth list is empty) instead of
failing with a malformed-auth-entry error. -/
theorem apply_malformed_auth_dropped :
    applyOutcomeFirstAuth
      (apply_simulation_to_transaction txInvokeDraft simMalformedAuth) =
      some [] ∧
    simMalformedAuth.results.map SimResultE.auth = [[AuthXdr.malformed]] := by
  constructor <;> rfl

/-- C2 (amended).  For a successful simulation whose first result has a
nonempty auth list, applying it to a draft whose first operation is an
invocation replaces that operation's auth list with exactly the entries of
the result that decode successfully, in order (all of them, when every
entry decodes); entries that fail to decode are silently dropped, never an
error. -/
theorem apply_simulation_auth_spec
    (tx : TransactionE) (sim : SimulateTransactionResponseE)
    (fr : SimResultE) (rs : List SimResultE) (d : SorobanTransactionDataE)
    (inv : InvokeHostFunctionOpE) (ops : List OperationE)
    (hres : sim.results = fr :: rs)
    (hdata : sim.transactionData = .valid d)
    (hne : fr.auth ≠ [])
    (hlen : (fr.auth.filterMap decodeAuthEntry).length < 2 ^ 32)
    (hops : tx.operations = ⟨.invokeHostFunction inv⟩ :: ops) :
    ∃ t, apply_simulation_to_transaction tx sim = .ok t ∧
      t.operations =
        ⟨.invokeHostFunction
          { inv with auth := fr.auth.filterMap decodeAuthEntry }⟩ :: ops ∧
      ∀ es : List SorobanAuthorizationEntryE,
        fr.auth = es.map AuthXdr.valid →
        fr.auth.filterMap decodeAuthEntry = es := by
  have hF : fr.auth.isEmpty = false := by
    cases hA : fr.auth with
    | nil => exact absurd hA hne
    | cons a as => rfl
  unfold apply_simulation_to_transaction
  rw [hres, hdata]
  simp only [List.head?_cons, hF, hops, Bool.false_eq_true, if_false]
  rw [if_neg (by omega)]
  exact ⟨_, rfl, rfl, fun es hes => by
    rw [hes, filterMap_decodeAuthEntry_map_valid]⟩

/-- Witness for C2 at a concrete draft and a simulation with one valid
auth entry. -/
theorem apply_simulation_auth_spec_witness :
    ∃ t, apply_simulation_to_transaction txInvokeDraft simValidAuth = .ok t ∧
      t.operations =
        ⟨.invokeHostFunction
          { functionName := "plant", args := [], auth :=
              List.filterMap decodeAuthEntry [AuthXdr.valid ⟨7⟩] }⟩ :: [] ∧
      ∀ es : List SorobanAuthorizationEntryE,
        [AuthXdr.valid ⟨7⟩] = es.map AuthXdr.valid →
        List.filterMap decodeAuthEntry [AuthXdr.valid ⟨7⟩] = es :=
  apply_simulation_auth_spec txInvokeDraft simValidAuth
    ⟨[AuthXdr.valid ⟨7⟩]⟩ [] ⟨0, 0⟩ ⟨"plant", [], []⟩ []
    rfl rfl (by decide) (by decide) rfl

/-! ## C3: simulation-error gating -/

/-- Normal form of a successful `build_invoke_transaction` call (helper). -/
theorem build_invoke_ok (acct : AccountResponseE) (sourcePk : List Nat)
    (functionName : String) (args : List ScValE)
    (hn : ¬ 32 < functionName.utf8ByteSize) (ha : ¬ 2 ^ 32 ≤ args.length) :
    build_invoke_transaction (some acct) sourcePk functionName args =
      .ok { sourceAccount := sourcePk, fee := 100,
            seqNum := wrapI64 (acct.seqNum + 1),
            operations := [⟨.invokeHostFunction ⟨functionName, args, []⟩⟩],
            ext := .v0 } := by
  unfold build_invoke_transaction
  simp only []
  rw [if_neg hn, if_neg ha]

/-- C3.  A simulation result that carries an error string makes the
simulation-error gate fail with `simulationFailed` before
`apply_simulation_to_transaction` runs: the gate produces no transaction,
and in the plant pipeline the apply step is never reached, so the built
draft's fee and operation list are untouched. -/
theorem simulation_error_not_applied (tx : TransactionE)
    (sim : SimulateTransactionResponseE) (msg : String)
    (hsim : sim.simError = some msg) :
    check_and_apply_simulation tx sim = .error (.simulationFailed msg) ∧
    (∀ t, check_and_apply_simulation tx sim ≠ .ok t) ∧
    ∀ (env : PlantEnv) (farmerPk : List Nat) (amount b : Int)
      (acct : AccountResponseE),
      env.trustlineCheck = .ok (true, b) →
      env.account = some acct →
      env.simulateResult = .ok sim →
      (prepare_plant_transaction env farmerPk amount).2 =
        .error (.simulationFailed msg) ∧
      Effect.applySimulation ∉ (prepare_plant_transaction env farmerPk amount).1 := by
  have h1 : check_and_apply_simulation tx sim = .error (.simulationFailed msg) := by
    unfold check_and_apply_simulation
    rw [hsim]
  refine ⟨h1, fun t ht => by rw [h1] at ht; exact Except.noConfusion ht, ?_⟩
  intro env farmerPk amount b acct htr hacct hsimres
  obtain ⟨tc, acc, sr⟩ := env
  simp only at htr hacct hsimres
  subst htr
  subst hacct
  subst hsimres
  unfold prepare_plant_transaction
  simp only []
  rw [build_invoke_ok acct farmerPk "plant" _ (by decide) (by norm_num)]
  rw [hsim, if_neg (show ¬ (true = false) by decide)]
  refine ⟨rfl, ?_⟩
  simp only []
  decide

/-- Witness for C3 at a concrete draft and the simulation error "x". -/
theorem simulation_error_not_applied_witness :
    check_and_apply_simulation txInvokeDraft simErrorX =
      .error (.simulationFailed "x") ∧
    (∀ t, check_and_apply_simulation txInvokeDraft simErrorX ≠ .ok t) ∧
    ∀ (env : PlantEnv) (farmerPk : List Nat) (amount b : Int)
      (acct : AccountResponseE),
      env.trustlineCheck = .ok (true, b) →
      env.account = some acct →
      env.simulateResult = .ok simErrorX →
      (prepare_plant_transaction env farmerPk amount).2 =
        .error (.simulationFailed "x") ∧
      Effect.applySimulation ∉ (prepare_plant_transaction env farmerPk amount).1 :=
  simulation_error_not_applied txInvokeDraft simErrorX "x" rfl

/-! ## C4: fee arithmetic of the simulation applier -/

/-- C4 counterexample.  With `minResourceFee = 2 ^ 32 - 100` the applied
fee is 0, not `baseInclusionFee + minimumResourceFee = 2 ^ 32`: the `u32`
cast silently wraps. -/
theorem apply_fee_wraps :
    applyOutcomeFee (apply_simulation_to_transaction txInvokeDraft simWrapFee) =
      some 0 ∧
    100 + simWrapFee.minResourceFee = 2 ^ 32 := by
  constructor <;> rfl

/-- C4 (amended).  For every successful simulation result the applied fee
is `(100 + minResourceFee) % 2 ^ 32`, which equals
`baseInclusionFee + minimumResourceFee` whenever that sum fits in a `u32`
(in particular 2600 for a minimum resource fee of 2500). -/
theorem apply_fee_spec (tx : TransactionE) (sim : SimulateTransactionResponseE)
    (fr : SimResultE) (rs : List SimResultE) (d : SorobanTransactionDataE)
    (hres : sim.results = fr :: rs)
    (hdata : sim.transactionData = .valid d)
    (hlen : (fr.auth.filterMap decodeAuthEntry).length < 2 ^ 32)
    (hm : sim.minResourceFee < 2 ^ 64) :
    ∃ t, apply_simulation_to_transaction tx sim = .ok t ∧
      t.fee = (100 + sim.minResourceFee) % 2 ^ 32 ∧
      (100 + sim.minResourceFee < 2 ^ 32 → t.fee = 100 + sim.minResourceFee) := by
  unfold apply_simulation_to_transaction
  rw [hres, hdata]
  simp only [List.head?_cons]
  have hfee : u32ofI64 (wrapI64 (100 + i64ofU64 sim.minResourceFee)) =
      (100 + sim.minResourceFee) % 2 ^ 32 := fee_cast_eq_mod _ hm
  by_cases hE : fr.auth.isEmpty
  · rw [if_pos hE]
    exact ⟨_, rfl, hfee, fun h => hfee.trans (Nat.mod_eq_of_lt h)⟩
  · rw [if_neg hE, if_neg (by omega)]
    exact ⟨_, rfl, hfee, fun h => hfee.trans (Nat.mod_eq_of_lt h)⟩

/-- Witness for C4 at a concrete draft and a minimum resource fee of 2500. -/
theorem apply_fee_spec_witness :
    ∃ t, apply_simulation_to_transaction txInvokeDraft sim2500 = .ok t ∧
      t.fee = (100 + sim2500.minResourceFee) % 2 ^ 32 ∧
      (100 + sim2500.minResourceFee < 2 ^ 32 →
        t.fee = 100 + sim2500.minResourceFee) :=
  apply_fee_spec txInvokeDraft sim2500 ⟨[]⟩ [] ⟨0, 0⟩ rfl rfl
    (by decide) (by decide)

/-! ## C5: transaction builder -/

/-- C5 counterexample.  With the account present, a 33-byte function name
makes `build_invoke_transaction` fail with `functionNameTooLong` instead
of returning a draft transaction. -/
theorem build_invoke_long_name :
    build_invoke_transaction (some ⟨5, 0⟩) (List.replicate 32 0)
      longFunctionName [] = .error .functionNameTooLong ∧
    longFunctionName.utf8ByteSize = 33 :=
  ⟨rfl, rfl⟩

/-- C5 (amended).  For a present account, a function name that fits the
32-byte symbol limit and an argument list below the vector bound, the
builder returns a draft with sequence number `fetched + 1`, the
placeholder fee 100, and exactly one invocation operation carrying the
given symbol and arguments with an empty auth list; an absent account
yields `accountNotFound` (and an over-long name `functionNameTooLong`,
per the counterexample). -/
theorem build_invoke_transaction_spec (acct : AccountResponseE)
    (sourcePk : List Nat) (functionName : String) (args : List ScValE)
    (hname : functionName.utf8ByteSize ≤ 32)
    (hargs : args.length < 2 ^ 32)
    (hlo : -(2 ^ 63) ≤ acct.seqNum) (hhi : acct.seqNum + 1 < 2 ^ 63) :
    (∃ tx, build_invoke_transaction (some acct) sourcePk functionName args =
        .ok tx ∧
      tx.seqNum = acct.seqNum + 1 ∧
      tx.fee = 100 ∧
      tx.operations = [⟨.invokeHostFunction ⟨functionName, args, []⟩⟩] ∧
      tx.ext = .v0 ∧
      tx.sourceAccount = sourcePk) ∧
    build_invoke_transaction none sourcePk functionName args =
      .error .accountNotFound := by
  constructor
  · rw [build_invoke_ok acct sourcePk functionName args (by omega) (by omega)]
    refine ⟨_, rfl, ?_, rfl, rfl, rfl, rfl⟩
    simp only []
    unfold wrapI64
    norm_num
    omega
  · rfl

/-- Witness for C5 at a concrete account and the function name "plant". -/
theorem build_invoke_transaction_spec_witness :
    (∃ tx, build_invoke_transaction (some ⟨5, 0⟩) (List.replicate 32 0)
        "plant" [] = .ok tx ∧
      tx.seqNum = (5 : Int) + 1 ∧
      tx.fee = 100 ∧
      tx.operations = [⟨.invokeHostFunction ⟨"plant", [], []⟩⟩] ∧
      tx.ext = .v0 ∧
      tx.sourceAccount = List.replicate 32 0) ∧
    build_invoke_transaction none (List.replicate 32 0) "plant" [] =
      .error .accountNotFound :=
  build_invoke_transaction_spec ⟨5, 0⟩ (List.replicate 32 0) "plant" []
    (by decide) (by decide) (by decide) (by decide)

/-! ## C6: stake-record decoder -/

/-- C6 counterexample.  A pail whose `zeros` field has an unrecognized
shape (here a bool) decodes successfully to "staked, no proof yet" instead
of failing with a malformed-value error. -/
theorem pail_unknown_shape_defaults :
    get_pail_data (some (.contractData (.map (some
      [(.symbol "zeros", .scBool true)])))) = .ok (true, false, 0) :=
  rfl

/-- C6 (amended).  An absent pail entry decodes to "not staked"; a present
map entry decodes to "staked" with the proof counter given by the
`zeros`-field normalization: a direct unsigned integer yields `Some`, an
empty sequence `None`, a sequence with an integer head `Some`; every other
shape silently normalizes to `None` ("no proof"), with no error. -/
theorem get_pail_data_spec (v : ScValE) (z : Nat) (t : List ScValE) :
    get_pail_data none = .ok (false, false, 0) ∧
    get_pail_data (some (.contractData (.map (some [(.symbol "zeros", v)])))) =
      .ok (true, (pailZerosOfVal v).isSome, (pailZerosOfVal v).getD 0) ∧
    pailZerosOfVal (.u32 z) = some z ∧
    pailZerosOfVal (.vec (some [])) = none ∧
    pailZerosOfVal (.vec (some (ScValE.u32 z :: t))) = some z ∧
    (pailZerosOfVal v = none →
      get_pail_data
        (some (.contractData (.map (some [(.symbol "zeros", v)])))) =
        .ok (true, false, 0)) := by
  refine ⟨rfl, rfl, rfl, rfl, rfl, fun h => ?_⟩
  have h2 : get_pail_data
      (some (.contractData (.map (some [(.symbol "zeros", v)])))) =
      .ok (true, (pailZerosOfVal v).isSome, (pailZerosOfVal v).getD 0) := rfl
  rw [h2, h]
  rfl

/-- Witness for C6 at the unrecognized shape `Bool(true)` and counter 3. -/
theorem get_pail_data_spec_witness :
    get_pail_data none = .ok (false, false, 0) ∧
    get_pail_data (some (.contractData (.map (some
      [(.symbol "zeros", .scBool true)])))) =
      .ok (true, (pailZerosOfVal (.scBool true)).isSome,
        (pailZerosOfVal (.scBool true)).getD 0) ∧
    pailZerosOfVal (.u32 3) = some 3 ∧
    pailZerosOfVal (.vec (some [])) = none ∧
    pailZerosOfVal (.vec (some (ScValE.u32 3 :: []))) = some 3 ∧
    (pailZerosOfVal (.scBool true) = none →
      get_pail_data (some (.contractData (.map (some
        [(.symbol "zeros", .scBool true)])))) = .ok (true, false, 0)) :=
  get_pail_data_spec (.scBool true) 3 []

/-! ## C7: block-info decoder -/

/-- C7 counterexample.  With a present block entry whose `entropy` field
holds only 31 bytes, `get_block_info` returns entropy `None` with no
error: entropy `None` does not characterize an absent block entry, and a
wrong-sized entropy is not a malformed-value failure. -/
theorem block_short_entropy_ignored :
    get_block_info (instanceEntryWithIndex 42)
      (some (.contractData (.map (some
        [(.symbol "entropy", .bytes (List.replicate 31 0))])))) =
      .ok (42, none) :=
  rfl

/-- C7 (amended).  The block index comes from the `FarmIndex` instance
value; entropy is `None` when the block entry is absent, and with a
present map entry it is the first `entropy` field holding exactly 32 bytes
(any other field or size is skipped, yielding `None` with no error); a
present block entry that is not a contract-data map is an error.  In
particular `get_block_info (instanceEntryWithIndex 42) none = .ok (42,
none)`. -/
theorem get_block_info_spec (idx : Nat) (m : List (ScValE × ScValE)) :
    get_block_info (instanceEntryWithIndex idx) none = .ok (idx, none) ∧
    get_block_info (instanceEntryWithIndex idx)
      (some (.contractData (.map (some m)))) = .ok (idx, findEntropy m) ∧
    (∀ bs, findEntropy m = some bs → bs.length = 32) ∧
    (∀ s bs rest,
      findEntropy ((ScValE.symbol s, ScValE.bytes bs) :: rest) =
        if s = "entropy" ∧ bs.length = 32 then some bs
        else findEntropy rest) ∧
    get_block_info (instanceEntryWithIndex idx)
      (some (.contractData (.u32 0))) = .error .blockNotMap := by
  refine ⟨rfl, rfl, ?_, fun s bs rest => rfl, rfl⟩
  induction m with
  | nil => exact fun bs h => Option.noConfusion h
  | cons kv rest ih =>
    obtain ⟨k, v⟩ := kv
    intro bs h
    cases k <;> cases v <;> simp only [findEntropy] at h <;>
      first
      | exact ih bs h
      | (rename_i s bs2
         by_cases hc : s = "entropy" ∧ bs2.length = 32
         · rw [if_pos hc] at h
           cases h
           exact hc.2
         · rw [if_neg hc] at h
           exact ih bs h)

/-- Witness for C7 at index 42 and a well-formed 32-byte entropy field. -/
theorem get_block_info_spec_witness :
    get_block_info (instanceEntryWithIndex 42) none = .ok (42, none) ∧
    get_block_info (instanceEntryWithIndex 42)
      (some (.contractData (.map (some
        [(.symbol "entropy", .bytes (List.replicate 32 7))])))) =
      .ok (42, findEntropy [(.symbol "entropy", .bytes (List.replicate 32 7))]) ∧
    (∀ bs, findEntropy [(.symbol "entropy", .bytes (List.replicate 32 7))] =
      some bs → bs.length = 32) ∧
    (∀ s bs rest,
      findEntropy ((ScValE.symbol s, ScValE.bytes bs) :: rest) =
        if s = "entropy" ∧ bs.length = 32 then some bs
        else findEntropy rest) ∧
    get_block_info (instanceEntryWithIndex 42)
      (some (.contractData (.u32 0))) = .error .blockNotMap :=
  get_block_info_spec 42 [(.symbol "entropy", .bytes (List.replicate 32 7))]

/-! ## C8: transport failures vs not-found -/

/-- C8 counterexample.  A transport failure in `get_ledger_entry` produces
exactly the same `Ok(None)` outcome as a semantically absent entry, and a
`get_account` failure in `get_xlm_balance` likewise becomes `Ok(None)`:
the caller cannot distinguish them. -/
theorem transport_error_not_distinguished :
    get_ledger_entry
        (TransportResult.transportError :
          TransportResult (Option (List RawLedgerEntry))) =
      get_ledger_entry (.ok none) ∧
    get_ledger_entry
        (TransportResult.transportError :
          TransportResult (Option (List RawLedgerEntry))) = .ok none ∧
    get_xlm_balance TransportResult.transportError = .ok none :=
  ⟨rfl, rfl, rfl⟩

/-- C8 (amended).  `get_ledger_entry` and `get_xlm_balance` map transport
failures to the not-found result `Ok(None)`; `get_ledger_entry` never
returns an error at all, so a transport failure is indistinguishable from
an absent entry at these call sites. -/
theorem get_ledger_entry_conflates_transport_errors :
    get_ledger_entry
        (TransportResult.transportError :
          TransportResult (Option (List RawLedgerEntry))) = .ok none ∧
    get_ledger_entry (.ok (none : Option (List RawLedgerEntry))) = .ok none ∧
    get_xlm_balance TransportResult.transportError = .ok none ∧
    ∀ r : TransportResult (Option (List RawLedgerEntry)),
      get_ledger_entry r = .ok none ∨
      ∃ e, get_ledger_entry r = .ok (some e) := by
  refine ⟨rfl, rfl, rfl, fun r => ?_⟩
  cases r with
  | transportError => exact Or.inl rfl
  | ok entries =>
    cases h : entries.bind List.head? with
    | none => exact Or.inl (by simp [get_ledger_entry, h])
    | some e => exact Or.inr ⟨e, by simp [get_ledger_entry, h]⟩

/-! ## C9: fee wrap-around -/

/-- C9.  The applied fee equals `(100 + minResourceFee) % 2 ^ 32`; whenever
that sum reaches `2 ^ 32` the stored fee silently wraps (apply still
succeeds, and the fee differs from the unreduced sum). -/
theorem fee_wraps_mod_u32 (tx : TransactionE)
    (sim : SimulateTransactionResponseE)
    (fr : SimResultE) (rs : List SimResultE) (d : SorobanTransactionDataE)
    (hres : sim.results = fr :: rs)
    (hdata : sim.transactionData = .valid d)
    (hlen : (fr.auth.filterMap decodeAuthEntry).length < 2 ^ 32)
    (hm : sim.minResourceFee < 2 ^ 64) :
    ∃ t, apply_simulation_to_transaction tx sim = .ok t ∧
      t.fee = (100 + sim.minResourceFee) % 2 ^ 32 ∧
      (2 ^ 32 ≤ 100 + sim.minResourceFee →
        t.fee ≠ 100 + sim.minResourceFee) := by
  unfold apply_simulation_to_transaction
  rw [hres, hdata]
  simp only [List.head?_cons]
  have hfee : u32ofI64 (wrapI64 (100 + i64ofU64 sim.minResourceFee)) =
      (100 + sim.minResourceFee) % 2 ^ 32 := fee_cast_eq_mod _ hm
  have hmod : (100 + sim.minResourceFee) % 2 ^ 32 < 2 ^ 32 :=
    Nat.mod_lt _ (by norm_num)
  by_cases hE : fr.auth.isEmpty
  · rw [if_pos hE]
    exact ⟨_, rfl, hfee, fun h => by simp only []; rw [hfee]; omega⟩
  · rw [if_neg hE, if_neg (by omega)]
    exact ⟨_, rfl, hfee, fun h => by simp only []; rw [hfee]; omega⟩

/-- Witness for C9 at a minimum resource fee of `2 ^ 32 - 100`. -/
theorem fee_wraps_mod_u32_witness :
    ∃ t, apply_simulation_to_transaction txInvokeDraft simWrapFee = .ok t ∧
      t.fee = (100 + simWrapFee.minResourceFee) % 2 ^ 32 ∧
      (2 ^ 32 ≤ 100 + simWrapFee.minResourceFee →
        t.fee ≠ 100 + simWrapFee.minResourceFee) :=
  fee_wraps_mod_u32 txInvokeDraft simWrapFee ⟨[]⟩ [] ⟨0, 0⟩ rfl rfl
    (by decide) (by decide)

/-! ## C10: trustline gate of the plant pipeline -/

/-- C10.  When the trustline check reports no trustline, the plant
pipeline fails immediately: no draft is built and no simulation or apply
step is ever reached. -/
theorem trustline_gate (env : PlantEnv) (farmerPk : List Nat)
    (amount b : Int)
    (htr : env.trustlineCheck = .ok (false, b)) :
    (prepare_plant_transaction env farmerPk amount).2 =
      .error .noTrustline ∧
    Effect.buildTransaction ∉ (prepare_plant_transaction env farmerPk amount).1 ∧
    Effect.simulate ∉ (prepare_plant_transaction env farmerPk amount).1 ∧
    Effect.applySimulation ∉ (prepare_plant_transaction env farmerPk amount).1 := by
  obtain ⟨tc, acc, sr⟩ := env
  simp only at htr
  subst htr
  unfold prepare_plant_transaction
  simp only []
  rw [if_pos trivial]
  exact ⟨rfl, by decide, by decide, by decide⟩

/-- Witness for C10 at a concrete trustline-less environment. -/
theorem trustline_gate_witness :
    (prepare_plant_transaction envNoTrustline [] 0).2 =
      .error .noTrustline ∧
    Effect.buildTransaction ∉ (prepare_plant_transaction envNoTrustline [] 0).1 ∧
    Effect.simulate ∉ (prepare_plant_transaction envNoTrustline [] 0).1 ∧
    Effect.applySimulation ∉ (prepare_plant_transaction envNoTrustline [] 0).1 :=
  trustline_gate envNoTrustline [] 0 0 rfl
